import Mathlib

/-!
Shallow embedding of the ewallet terminal application (Rust sources
`src/app.rs`, `src/controllers/app_controller.rs`, `src/models/user.rs`,
`src/models/transaction.rs`, `src/main.rs`).

Modelling conventions:
* SQLite `REAL` amounts (`f64` in Rust) are embedded as exact rationals `ℚ`.
* The `users` table is a list of rows in insertion order; `INSERT` appends,
  `UPDATE ... WHERE username = ?` rewrites every row with that username
  (the primary key guarantees at most one in practice), and the `query_row`
  single-row read takes the first matching row and errors (here: `none`)
  when there is no row.
* The `transactions` table is the append-only list of rows in insertion
  order; `ORDER BY timestamp DESC` is modelled as list reversal, since the
  timestamps are nondecreasing in insertion order.
* `Instant::now()` / `chrono::Local::now()` are modelled by an explicit
  `now : Nat` argument to every operation that reads the clock.
* rusqlite `Result`s are embedded as `Option`: `none` is the propagated
  storage error (in this in-memory model only a `query_row` on a missing
  row can produce it); operations whose Rust bodies cannot hit that path
  are embedded as total functions.
* The numeric interpolation in status messages (`format!("... {:.2}", x)`)
  is abstracted to the fixed prefix of the format string; no claim depends
  on the rendered number.
-/

namespace EWallet

/-- `f64` money amounts, embedded as exact rationals. -/
abbrev Amount := ℚ

/-- A row of the `users` table: `users(username TEXT PRIMARY KEY, balance REAL)`. -/
structure UserRow where
  username : String
  balance : Amount
deriving DecidableEq

/-- A row of the `transactions` table (the auto-increment `id` is the row's
position in the list and is not stored). -/
structure TxRow where
  username : String
  transaction_type : String
  amount : Amount
  recipient : Option String
  sender : Option String
  previous_balance : Amount
  new_balance : Amount
  timestamp : Nat
deriving DecidableEq

/-- The `AppState` enum shared by `app.rs` and `app_controller.rs`. -/
inductive AppState where
  | MainMenu
  | Login
  | CreateAccount
  | LoggedIn
  | Deposit
  | Withdraw
  | Transfer
  | ViewTransactions
deriving DecidableEq

/-- The subset of crossterm `KeyCode` values the program distinguishes;
`Other` stands for every variant all the match arms ignore. -/
inductive KeyCode where
  | Char (c : Char)
  | Enter
  | Backspace
  | Esc
  | Other
deriving DecidableEq

/-- The mutable state of the program: the fields of the `App` /
`AppController` struct plus the two database tables behind `conn`. -/
structure State where
  current_state : AppState
  input : String
  transfer_recipient : Option String
  messages : List (String × Nat)
  users : List UserRow
  transactions : List TxRow
  current_user : Option String
deriving DecidableEq

/-- `SELECT EXISTS(SELECT 1 FROM users WHERE username = ?)`. -/
def userExists (users : List UserRow) (u : String) : Bool :=
  users.any (fun r => r.username == u)

/-- `SELECT username, balance FROM users WHERE username = ?`, first row. -/
def findUser (users : List UserRow) (u : String) : Option UserRow :=
  users.find? (fun r => r.username == u)

/-- `SELECT balance FROM users WHERE username = ?` via `query_row`:
the first matching row's balance, `none` when there is no row. -/
def findBalance (users : List UserRow) (u : String) : Option Amount :=
  (findUser users u).map (fun r => r.balance)

/-- `UPDATE users SET balance = ? WHERE username = ?`. -/
def updateBalance (users : List UserRow) (u : String) (b : Amount) : List UserRow :=
  users.map (fun r => if r.username == u then { r with balance := b } else r)

/-- Sum of all stored balances (the quantity the conservation property
talks about). -/
def sumBalances (users : List UserRow) : Amount :=
  (users.map (fun r => r.balance)).sum

namespace App

/-- `App::add_message`: pushes `(message, Instant::now())`. -/
def add_message (now : Nat) (m : String) (s : State) : State :=
  { s with messages := s.messages ++ [(m, now)] }

/-- `App::clear_expired_messages`: retains messages younger than the
5-second timeout. -/
def clear_expired_messages (now : Nat) (s : State) : State :=
  { s with messages := s.messages.filter (fun p => now - p.2 < 5) }

/-- `App::login`. -/
def login (now : Nat) (username : String) (s : State) : Bool × State :=
  if userExists s.users username then
    (true, add_message now "Login successful."
      { s with current_user := some username, current_state := AppState.LoggedIn })
  else
    (false, add_message now "User does not exist. Please try again." s)

/-- `App::create_account`. -/
def create_account (now : Nat) (username : String) (s : State) : Bool × State :=
  if userExists s.users username then
    (false, add_message now
      "Username already exists. Please choose a different username." s)
  else
    (true, add_message now "Account created successfully."
      { s with users := s.users ++ [⟨username, 0⟩],
               current_user := some username,
               current_state := AppState.LoggedIn })

/-- `App::logout`. -/
def logout (now : Nat) (s : State) : State :=
  add_message now "Logged out successfully."
    { s with current_user := none, current_state := AppState.MainMenu }

/-- `App::get_balance`: the current user's balance (storage error when the
row is missing), `0.0` when unauthenticated. -/
def get_balance (s : State) : Option Amount :=
  match s.current_user with
  | some u => findBalance s.users u
  | none => some 0

/-- `App::deposit`: no amount check; silently a no-op when unauthenticated. -/
def deposit (now : Nat) (amount : Amount) (s : State) : Option State :=
  match s.current_user with
  | none => some s
  | some username =>
    match get_balance s with
    | none => none
    | some previous_balance =>
      let new_balance := previous_balance + amount
      let s1 := { s with users := updateBalance s.users username new_balance }
      let row : TxRow :=
        ⟨username, "deposit", amount, none, none, previous_balance, new_balance, now⟩
      some (add_message now "Deposited $"
        { s1 with transactions := s1.transactions ++ [row] })

/-- `App::withdraw`: no balance or sign check; silently a no-op when
unauthenticated. -/
def withdraw (now : Nat) (amount : Amount) (s : State) : Option State :=
  match s.current_user with
  | none => some s
  | some username =>
    match get_balance s with
    | none => none
    | some previous_balance =>
      let new_balance := previous_balance - amount
      let s1 := { s with users := updateBalance s.users username new_balance }
      let row : TxRow :=
        ⟨username, "withdraw", amount, none, none, previous_balance, new_balance, now⟩
      some (add_message now "Withdrawn $"
        { s1 with transactions := s1.transactions ++ [row] })

/-- `App::can_withdraw`: `balance >= amount` for the current user, `false`
when unauthenticated, storage error when the user's row is missing. -/
def can_withdraw (amount : Amount) (s : State) : Option Bool :=
  match s.current_user with
  | some username =>
    match findBalance s.users username with
    | none => none
    | some balance => some (decide (amount ≤ balance))
  | none => some false

/-- `App::transfer`: checks recipient existence, then `can_withdraw`; on
success debits the sender, credits the recipient (whose balance was read
before the debit), and appends the `transfer_out` and `transfer_in` rows. -/
def transfer (now : Nat) (recipient : String) (amount : Amount) (s : State) :
    Option (Bool × State) :=
  if !userExists s.users recipient then
    some (false, add_message now
      ("Recipient " ++ recipient ++ " does not exist.") s)
  else
    match can_withdraw amount s with
    | none => none
    | some false =>
      some (false, add_message now "Insufficient funds for transfer." s)
    | some true =>
      match s.current_user with
      | none => none
      | some sender =>
        match get_balance s with
        | none => none
        | some sender_previous_balance =>
          let sender_new_balance := sender_previous_balance - amount
          match findBalance s.users recipient with
          | none => none
          | some recipient_previous_balance =>
            let recipient_new_balance := recipient_previous_balance + amount
            let users1 := updateBalance s.users sender sender_new_balance
            let users2 := updateBalance users1 recipient recipient_new_balance
            let outRow : TxRow :=
              ⟨sender, "transfer_out", amount, some recipient, some sender,
                sender_previous_balance, sender_new_balance, now⟩
            let inRow : TxRow :=
              ⟨recipient, "transfer_in", amount, some recipient, some sender,
                recipient_previous_balance, recipient_new_balance, now⟩
            some (true, add_message now ("Transferred $ to " ++ recipient)
              { s with users := users2,
                       transactions := s.transactions ++ [outRow, inRow] })

/-- `App::get_transactions`: rows with `username = ? OR sender = ?`,
newest first, capped at 10; the stringly `HashMap` rendering of each row
is kept as the structured row. Empty when unauthenticated. -/
def get_transactions (s : State) : List TxRow :=
  match s.current_user with
  | none => []
  | some username =>
    ((s.transactions.filter
        (fun t => t.username == username || t.sender == some username)).reverse).take 10

end App

namespace User

/-- `User::create` (`models/user.rs`): insert with balance 0 unless the
username exists; returns whether a row was inserted, paired with the new
table. -/
def create (users : List UserRow) (username : String) : Bool × List UserRow :=
  if userExists users username then
    (false, users)
  else
    (true, users ++ [⟨username, 0⟩])

end User

namespace Transaction

/-- `Transaction::get_user_transactions` (`models/transaction.rs`): rows
with `username = ? OR sender = ?`, newest first, skipping `transfer_in`
rows whose sender is the queried user; unbounded. -/
def get_user_transactions (username : String) (log : List TxRow) : List TxRow :=
  ((log.filter
      (fun t => t.username == username || t.sender == some username)).filter
    (fun t => !(t.transaction_type == "transfer_in" && t.sender == some username))).reverse

end Transaction

/-- Modelled from the spec: Rust's `str::trim` (standard library, not
part of src/), written on the character list so that it evaluates. -/
def trim (s : String) : String :=
  ⟨((s.data.dropWhile Char.isWhitespace).reverse.dropWhile
      Char.isWhitespace).reverse⟩

namespace AppController

/-- `AppController::add_message`. -/
def add_message (now : Nat) (m : String) (s : State) : State :=
  { s with messages := s.messages ++ [(m, now)] }

/-- `AppController::clear_expired_messages`. -/
def clear_expired_messages (now : Nat) (s : State) : State :=
  { s with messages := s.messages.filter (fun p => now - p.2 < 5) }

/-- `AppController::login` (via `User::get`). -/
def login (now : Nat) (username : String) (s : State) : Bool × State :=
  match findUser s.users username with
  | some _ =>
    (true, add_message now "Login successful."
      { s with current_user := some username, current_state := AppState.LoggedIn })
  | none =>
    (false, add_message now "User does not exist. Please try again." s)

/-- `AppController::create_account` (via `User::create`). -/
def create_account (now : Nat) (username : String) (s : State) : Bool × State :=
  let c := User.create s.users username
  if c.1 then
    (true, add_message now "Account created successfully."
      { s with users := c.2, current_user := some username,
               current_state := AppState.LoggedIn })
  else
    (false, add_message now
      "Username already exists. Please choose a different username." s)

/-- `AppController::logout`. -/
def logout (now : Nat) (s : State) : State :=
  add_message now "Logged out successfully."
    { s with current_user := none, current_state := AppState.MainMenu }

/-- `AppController::get_balance`: total — a missing row yields `0.0`. -/
def get_balance (s : State) : Amount :=
  match s.current_user with
  | some u =>
    match findUser s.users u with
    | some r => r.balance
    | none => 0
  | none => 0

/-- `AppController::deposit` (via `User::update_balance` and
`Transaction::create`). -/
def deposit (now : Nat) (amount : Amount) (s : State) : State :=
  match s.current_user with
  | none => s
  | some username =>
    let previous_balance := get_balance s
    let new_balance := previous_balance + amount
    let s1 := { s with users := updateBalance s.users username new_balance }
    let row : TxRow :=
      ⟨username, "deposit", amount, none, none, previous_balance, new_balance, now⟩
    add_message now "Deposited $" { s1 with transactions := s1.transactions ++ [row] }

/-- `AppController::withdraw`: no balance or sign check inside. -/
def withdraw (now : Nat) (amount : Amount) (s : State) : State :=
  match s.current_user with
  | none => s
  | some username =>
    let previous_balance := get_balance s
    let new_balance := previous_balance - amount
    let s1 := { s with users := updateBalance s.users username new_balance }
    let row : TxRow :=
      ⟨username, "withdraw", amount, none, none, previous_balance, new_balance, now⟩
    add_message now "Withdrawn $" { s1 with transactions := s1.transactions ++ [row] }

/-- `AppController::can_withdraw`: total — unauthenticated or missing row
yields `false`. -/
def can_withdraw (amount : Amount) (s : State) : Bool :=
  match s.current_user with
  | some username =>
    match findUser s.users username with
    | some user => decide (amount ≤ user.balance)
    | none => false
  | none => false

/-- `AppController::transfer`: the authenticated-sender and
recipient-exists checks are one combined pattern match, then the balance
check; there is no positivity check on the amount. The recipient's
previous balance is the one read by `User::get` before the sender is
debited. -/
def transfer (now : Nat) (recipient : String) (amount : Amount) (s : State) :
    Bool × State :=
  match s.current_user, findUser s.users recipient with
  | some sender_username, some recipient_user =>
    let sender_previous_balance := get_balance s
    if sender_previous_balance < amount then
      (false, add_message now
        "Transfer failed. Insufficient funds. Your balance: $" s)
    else
      let sender_new_balance := sender_previous_balance - amount
      let recipient_previous_balance := recipient_user.balance
      let recipient_new_balance := recipient_previous_balance + amount
      let users1 := updateBalance s.users sender_username sender_new_balance
      let users2 := updateBalance users1 recipient recipient_new_balance
      let outRow : TxRow :=
        ⟨sender_username, "transfer_out", amount, some recipient, none,
          sender_previous_balance, sender_new_balance, now⟩
      let inRow : TxRow :=
        ⟨recipient, "transfer_in", amount, none, some sender_username,
          recipient_previous_balance, recipient_new_balance, now⟩
      (true, add_message now ("Transferred $ to " ++ recipient)
        { s with users := users2,
                 transactions := s.transactions ++ [outRow, inRow] })
  | _, _ =>
    (false, add_message now
      ("Transfer failed. Recipient " ++ recipient ++ " not found.") s)

/-- `AppController::get_transactions`. -/
def get_transactions (s : State) : List TxRow :=
  match s.current_user with
  | none => []
  | some username => Transaction.get_user_transactions username s.transactions

/-- The `AppState::MainMenu` arm of `AppController::handle_input`. -/
def on_main_menu (key : KeyCode) (s : State) : Bool × State :=
  match key with
  | KeyCode.Char c =>
    if c = '1' then (true, { s with current_state := AppState.Login })
    else if c = '2' then (true, { s with current_state := AppState.CreateAccount })
    else if c = 'q' then (false, s)
    else (true, s)
  | _ => (true, s)

/-- The combined `AppState::Login | AppState::CreateAccount` arm of
`AppController::handle_input`. -/
def on_login_or_create (now : Nat) (key : KeyCode) (s : State) : Bool × State :=
  match key with
  | KeyCode.Enter =>
    if s.input = "" then (true, s)
    else
      let r :=
        if s.current_state = AppState.Login then login now s.input s
        else create_account now s.input s
      if r.1 then (true, { r.2 with input := "" }) else (true, r.2)
  | KeyCode.Char c => (true, { s with input := s.input.push c })
  | KeyCode.Backspace => (true, { s with input := (s.input.dropRight 1) })
  | KeyCode.Esc =>
    (true, { s with current_state := AppState.MainMenu, input := "" })
  | KeyCode.Other => (true, s)

/-- The `AppState::LoggedIn` arm of `AppController::handle_input`. -/
def on_logged_in (now : Nat) (key : KeyCode) (s : State) : Bool × State :=
  match key with
  | KeyCode.Char c =>
    if c = '1' then (true, { s with current_state := AppState.Deposit })
    else if c = '2' then (true, { s with current_state := AppState.Withdraw })
    else if c = '3' then (true, { s with current_state := AppState.Transfer })
    else if c = '4' then (true, { s with current_state := AppState.ViewTransactions })
    else if c = '5' then (true, logout now s)
    else (true, s)
  | _ => (true, s)

/-- The combined `AppState::Deposit | AppState::Withdraw` arm of
`AppController::handle_input`. -/
def on_amount_screen (parse : String → Option Amount) (now : Nat)
    (key : KeyCode) (s : State) : Bool × State :=
  match key with
  | KeyCode.Enter =>
    match parse (trim s.input) with
    | some amount =>
      if 0 ≤ amount then
        let s1 :=
          if s.current_state = AppState.Deposit then deposit now amount s
          else if can_withdraw amount s then withdraw now amount s
          else add_message now "Insufficient funds." s
        (true, { s1 with input := "", current_state := AppState.LoggedIn })
      else
        (true, add_message now
          "Invalid amount. Please enter a positive number." s)
    | none =>
      (true, add_message now "Invalid amount. Please enter a valid number." s)
  | KeyCode.Char c => (true, { s with input := s.input.push c })
  | KeyCode.Backspace => (true, { s with input := (s.input.dropRight 1) })
  | KeyCode.Esc =>
    (true, { s with current_state := AppState.LoggedIn, input := "" })
  | KeyCode.Other => (true, s)

/-- The `AppState::Transfer` arm of `AppController::handle_input`: the
first Enter captures the recipient, the second parses the amount and runs
the transfer (`self.transfer_recipient.take()` clears the captured
recipient first). -/
def on_transfer_screen (parse : String → Option Amount) (now : Nat)
    (key : KeyCode) (s : State) : Bool × State :=
  match key with
  | KeyCode.Enter =>
    match s.transfer_recipient with
    | none =>
      (true, { s with transfer_recipient := some s.input, input := "" })
    | some rcp =>
      match parse (trim s.input) with
      | some amount =>
        if 0 ≤ amount then
          let s0 := { s with transfer_recipient := none }
          let s1 := (transfer now rcp amount s0).2
          (true, { s1 with input := "", current_state := AppState.LoggedIn })
        else
          (true, add_message now
            "Invalid amount. Please enter a positive number." s)
      | none =>
        (true, add_message now "Invalid amount. Please enter a valid number." s)
  | KeyCode.Char c => (true, { s with input := s.input.push c })
  | KeyCode.Backspace => (true, { s with input := (s.input.dropRight 1) })
  | KeyCode.Esc =>
    (true, { s with current_state := AppState.LoggedIn, input := "",
                    transfer_recipient := none })
  | KeyCode.Other => (true, s)

/-- The `AppState::ViewTransactions` arm of `AppController::handle_input`. -/
def on_view_transactions (key : KeyCode) (s : State) : Bool × State :=
  match key with
  | KeyCode.Esc => (true, { s with current_state := AppState.LoggedIn })
  | KeyCode.Enter => (true, { s with current_state := AppState.LoggedIn })
  | _ => (true, s)

/-- `AppController::handle_input`: the key-dispatch state machine, one
helper per match arm of the source. The string-to-`f64` parse
(`self.input.trim().parse::<f64>()`, standard library, not in src/) is a
parameter; the returned `Bool` is the continue-running flag. -/
def handle_input (parse : String → Option Amount) (now : Nat) (key : KeyCode)
    (s : State) : Bool × State :=
  match s.current_state with
  | AppState.MainMenu => on_main_menu key s
  | AppState.Login => on_login_or_create now key s
  | AppState.CreateAccount => on_login_or_create now key s
  | AppState.LoggedIn => on_logged_in now key s
  | AppState.Deposit => on_amount_screen parse now key s
  | AppState.Withdraw => on_amount_screen parse now key s
  | AppState.Transfer => on_transfer_screen parse now key s
  | AppState.ViewTransactions => on_view_transactions key s

/-- One iteration of the interaction loop: expire messages, then dispatch
one key (the draw step has no state effect). -/
def loop_step (parse : String → Option Amount) (ev : Nat × KeyCode)
    (s : State) : State :=
  (handle_input parse ev.1 ev.2 (clear_expired_messages ev.1 s)).2

/-- The interaction loop driven by a sequence of timed key events. -/
def run (parse : String → Option Amount) (evs : List (Nat × KeyCode))
    (s : State) : State :=
  evs.foldl (fun st ev => loop_step parse ev st) s

end AppController

/-- Modelled from the spec: the standard-library numeric parse used by the
input handlers (`str::parse::<f64>`, not part of src/) — here restricted to
nonnegative integer literals, which is all the claims exercise; the
handlers consume its result only through the `amount >= 0.0` guard. -/
def parseAmount (str : String) : Option Amount :=
  if !str.data.isEmpty && str.data.all (fun c => c.isDigit)
  then some ((str.data.foldl (fun n c => 10 * n + (c.toNat - 48)) 0 : Nat) : Amount)
  else none

/-- A concrete ledger: alice holds 100, bob holds 0, alice logged in. -/
def aliceBobState : State :=
  { current_state := AppState.LoggedIn, input := "", transfer_recipient := none,
    messages := [], users := [⟨"alice", 100⟩, ⟨"bob", 0⟩], transactions := [],
    current_user := some "alice" }

/-- A concrete one-account ledger: alice holds 100 and is logged in. -/
def aliceState : State :=
  { current_state := AppState.LoggedIn, input := "", transfer_recipient := none,
    messages := [], users := [⟨"alice", 100⟩], transactions := [],
    current_user := some "alice" }

/-- All stored balances are nonnegative. -/
def NonnegBalances (users : List UserRow) : Prop :=
  ∀ r ∈ users, 0 ≤ r.balance

instance (users : List UserRow) : Decidable (NonnegBalances users) :=
  inferInstanceAs (Decidable (∀ r ∈ users, 0 ≤ r.balance))

/-- What claim C5 asserts of `App::deposit` by user `u` with prior
balance `b`: balance becomes `b + amount`, one deposit row with the
before/after snapshots is appended, and no other balance changes. -/
def DepositSpec (now : Nat) (amount : Amount) (s : State) (u : String)
    (b : Amount) : Prop :=
  match App.deposit now amount s with
  | none => False
  | some s1 =>
      findBalance s1.users u = some (b + amount) ∧
      s1.transactions = s.transactions ++
        [⟨u, "deposit", amount, none, none, b, b + amount, now⟩] ∧
      ∀ v, v ≠ u → findBalance s1.users v = findBalance s.users v

/-- What claim C9 asserts of `App::withdraw` by user `u` with prior
balance `b`: it always succeeds, sets the balance to `b - amount` with no
balance or sign check, appends one withdraw row, and no other balance
changes. -/
def WithdrawSpec (now : Nat) (amount : Amount) (s : State) (u : String)
    (b : Amount) : Prop :=
  match App.withdraw now amount s with
  | none => False
  | some s1 =>
      findBalance s1.users u = some (b - amount) ∧
      s1.transactions = s.transactions ++
        [⟨u, "withdraw", amount, none, none, b, b - amount, now⟩] ∧
      ∀ v, v ≠ u → findBalance s1.users v = findBalance s.users v

/-- The amended claim C2, for `App::transfer` by authenticated sender
`sender` with balance `sb` and a recipient distinct from the sender: on
success the debit, the credit and the two log rows; on failure no change
to balances or log. -/
def TransferAtomicSpec (now : Nat) (recipient : String) (amount : Amount)
    (s : State) (sender : String) (sb : Amount) : Prop :=
  match App.transfer now recipient amount s with
  | none => False
  | some (true, s1) =>
      ∃ rb, findBalance s.users recipient = some rb ∧
        findBalance s1.users sender = some (sb - amount) ∧
        findBalance s1.users recipient = some (rb + amount) ∧
        s1.transactions = s.transactions ++
          [⟨sender, "transfer_out", amount, some recipient, some sender,
              sb, sb - amount, now⟩,
           ⟨recipient, "transfer_in", amount, some recipient, some sender,
              rb, rb + amount, now⟩]
  | some (false, s1) => s1.users = s.users ∧ s1.transactions = s.transactions

/-- The amended claim C3, for `App::transfer` by an authenticated sender
with balance `sb`: exactly two short-circuiting failure checks, recipient
existence first, then `can_withdraw`; no positivity check on the amount,
so success is equivalent to recipient-exists and `amount ≤ sb`. -/
def TransferChecksSpec (now : Nat) (recipient : String) (amount : Amount)
    (s : State) (sb : Amount) : Prop :=
  match App.transfer now recipient amount s with
  | none => False
  | some (ok, s1) =>
      ok = (userExists s.users recipient && decide (amount ≤ sb)) ∧
      (userExists s.users recipient = false →
        s1 = App.add_message now
          ("Recipient " ++ recipient ++ " does not exist.") s) ∧
      (userExists s.users recipient = true → ¬ amount ≤ sb →
        s1 = App.add_message now "Insufficient funds for transfer." s)

/-- The amended claim C6, for the repository-backed history query
`Transaction::get_user_transactions` after `AppController::transfer` from
`A` (balance `sb`) to a distinct `B` (balance `rb`): the sender sees
exactly one new record, the transfer_out; the recipient sees exactly one
new record, the transfer_in. -/
def TransferHistorySpec (now : Nat) (A B : String) (amount : Amount)
    (s : State) (sb rb : Amount) : Prop :=
  (AppController.transfer now B amount s).1 = true ∧
  Transaction.get_user_transactions A
      (AppController.transfer now B amount s).2.transactions
    = ⟨A, "transfer_out", amount, some B, none, sb, sb - amount, now⟩
        :: Transaction.get_user_transactions A s.transactions ∧
  Transaction.get_user_transactions B
      (AppController.transfer now B amount s).2.transactions
    = ⟨B, "transfer_in", amount, none, some A, rb, rb + amount, now⟩
        :: Transaction.get_user_transactions B s.transactions

/-- Claim C10's deposit half: pressing Enter on input "0" in the Deposit
screen succeeds, returns to the LoggedIn screen, leaves the balance of
the current user `u` at `b`, and appends a deposit row of amount 0. -/
def ZeroDepositSpec (now : Nat) (s : State) (u : String) (b : Amount) : Prop :=
  (AppController.handle_input parseAmount now KeyCode.Enter s).1 = true ∧
  (AppController.handle_input parseAmount now KeyCode.Enter s).2.current_state
    = AppState.LoggedIn ∧
  findBalance (AppController.handle_input parseAmount now KeyCode.Enter s).2.users u
    = some b ∧
  (AppController.handle_input parseAmount now KeyCode.Enter s).2.transactions
    = s.transactions ++ [⟨u, "deposit", 0, none, none, b, b, now⟩]

/-- Claim C10's withdraw half: the same for the Withdraw screen and a
withdraw row of amount 0. -/
def ZeroWithdrawSpec (now : Nat) (s : State) (u : String) (b : Amount) : Prop :=
  (AppController.handle_input parseAmount now KeyCode.Enter s).1 = true ∧
  (AppController.handle_input parseAmount now KeyCode.Enter s).2.current_state
    = AppState.LoggedIn ∧
  findBalance (AppController.handle_input parseAmount now KeyCode.Enter s).2.users u
    = some b ∧
  (AppController.handle_input parseAmount now KeyCode.Enter s).2.transactions
    = s.transactions ++ [⟨u, "withdraw", 0, none, none, b, b, now⟩]

/-! ## Helper lemmas about the table operations -/

theorem findUser_username {us : List UserRow} {u : String} {r : UserRow}
    (h : findUser us u = some r) : r.username = u := by
  have h1 := List.find?_some h
  simpa using h1

theorem mem_of_findUser {us : List UserRow} {u : String} {r : UserRow}
    (h : findUser us u = some r) : r ∈ us :=
  List.mem_of_find?_eq_some h

theorem findUser_updateBalance_self (us : List UserRow) (u : String) (b : Amount) :
    findUser (updateBalance us u b) u
      = (findUser us u).map (fun r => { r with balance := b }) := by
  induction us with
  | nil => rfl
  | cons r rest ih =>
    by_cases h : r.username = u
    · simp [findUser, updateBalance, h] at ih ⊢
    · simp [findUser, updateBalance, h] at ih ⊢
      exact ih

theorem findUser_updateBalance_other (us : List UserRow) (u v : String)
    (b : Amount) (h : v ≠ u) :
    findUser (updateBalance us u b) v = findUser us v := by
  induction us with
  | nil => rfl
  | cons r rest ih =>
    simp only [findUser, updateBalance, List.map_cons]
    by_cases hr : r.username = u
    · have hv : ¬ r.username = v := by
        intro hc
        exact h (hc ▸ hr)
      have hif : (if r.username == u then ({ r with balance := b } : UserRow) else r)
          = { r with balance := b } := by simp [hr]
      rw [hif, List.find?_cons_of_neg _ (by simp [hv]),
          List.find?_cons_of_neg _ (by simp [hv])]
      simpa only [findUser, updateBalance] using ih
    · have hif : (if r.username == u then ({ r with balance := b } : UserRow) else r)
          = r := by simp [hr]
      by_cases hv : r.username = v
      · rw [hif, List.find?_cons_of_pos _ (by simp [hv]),
            List.find?_cons_of_pos _ (by simp [hv])]
      · rw [hif, List.find?_cons_of_neg _ (by simp [hv]),
            List.find?_cons_of_neg _ (by simp [hv])]
        simpa only [findUser, updateBalance] using ih

theorem findBalance_updateBalance_self {us : List UserRow} {u : String}
    {r : UserRow} (b : Amount) (h : findUser us u = some r) :
    findBalance (updateBalance us u b) u = some b := by
  simp [findBalance, findUser_updateBalance_self, h]

theorem findBalance_updateBalance_other (us : List UserRow) (u v : String)
    (b : Amount) (h : v ≠ u) :
    findBalance (updateBalance us u b) v = findBalance us v := by
  simp [findBalance, findUser_updateBalance_other us u v b h]

theorem exists_findUser_of_userExists {us : List UserRow} {u : String}
    (h : userExists us u = true) : ∃ r, findUser us u = some r := by
  simp only [userExists, List.any_eq_true] at h
  obtain ⟨r, hr, hu⟩ := h
  have : (us.find? (fun r => r.username == u)).isSome := by
    exact List.find?_isSome.mpr ⟨r, hr, hu⟩
  obtain ⟨r1, hr1⟩ := Option.isSome_iff_exists.mp this
  exact ⟨r1, hr1⟩

theorem userExists_of_findUser {us : List UserRow} {u : String} {r : UserRow}
    (h : findUser us u = some r) : userExists us u = true := by
  simp only [userExists, List.any_eq_true]
  refine ⟨r, mem_of_findUser h, ?_⟩
  simp [findUser_username h]

/-! ## C8: message expiry never touches the ledger -/

/-- C8: `App::clear_expired_messages` changes at most the message list;
balances, the transaction log, the current user, the interaction state
and the pending input (text buffer and captured transfer recipient) are
unchanged. -/
theorem clear_expired_messages_frame (now : Nat) (s : State) :
    (App.clear_expired_messages now s).users = s.users ∧
    (App.clear_expired_messages now s).transactions = s.transactions ∧
    (App.clear_expired_messages now s).current_user = s.current_user ∧
    (App.clear_expired_messages now s).current_state = s.current_state ∧
    (App.clear_expired_messages now s).input = s.input ∧
    (App.clear_expired_messages now s).transfer_recipient = s.transfer_recipient :=
  ⟨rfl, rfl, rfl, rfl, rfl, rfl⟩

/-! ## C7: logout -/

/-- C7 counterexample: calling `App::logout` twice does not leave the same
state as calling it once, because each call appends one status message. -/
theorem logout_not_idempotent_counterexample :
    App.logout 0 (App.logout 0 aliceState) ≠ App.logout 0 aliceState ∧
    (App.logout 0 (App.logout 0 aliceState)).messages.length = 2 ∧
    (App.logout 0 aliceState).messages.length = 1 := by
  refine ⟨?_, rfl, rfl⟩
  decide

/-- C7 amended: `App::logout` always succeeds and sets the session to
Anonymous (current user `none`, main-menu state); a second call in a row
changes nothing except appending one more status message. -/
theorem logout_idempotent_except_messages (n1 n2 : Nat) (s : State) :
    (App.logout n1 s).current_user = none ∧
    (App.logout n1 s).current_state = AppState.MainMenu ∧
    (App.logout n2 (App.logout n1 s)).current_user = none ∧
    (App.logout n2 (App.logout n1 s)).current_state = AppState.MainMenu ∧
    (App.logout n2 (App.logout n1 s)).users = (App.logout n1 s).users ∧
    (App.logout n2 (App.logout n1 s)).transactions = (App.logout n1 s).transactions ∧
    (App.logout n2 (App.logout n1 s)).input = (App.logout n1 s).input ∧
    (App.logout n2 (App.logout n1 s)).transfer_recipient
      = (App.logout n1 s).transfer_recipient ∧
    (App.logout n2 (App.logout n1 s)).messages
      = (App.logout n1 s).messages ++ [("Logged out successfully.", n2)] :=
  ⟨rfl, rfl, rfl, rfl, rfl, rfl, rfl, rfl, rfl⟩

/-! ## C1: transfer is not zero-sum on self-transfer -/

/-- C1 (code bug at the failing input): on the ledger where alice holds
100 and is logged in, the self-transfer `transfer("alice", 40)` succeeds
and appends two log records, but leaves alice at 140: the recipient's
balance is read before the sender's debit is written, and the credit
overwrites the debit, so the ledger sum grows by the transferred amount
instead of staying constant. -/
theorem self_transfer_violates_conservation :
    sumBalances aliceState.users = 100 ∧
    (App.transfer 0 "alice" 40 aliceState).map
        (fun p => (p.1, sumBalances p.2.users, findBalance p.2.users "alice",
          p.2.transactions.length))
      = some (true, 140, some 140, 2) := by
  constructor
  · norm_num [sumBalances, aliceState]
  · norm_num +decide [App.transfer, aliceState, userExists, App.can_withdraw,
      App.get_balance, findBalance, findUser, updateBalance, App.add_message,
      sumBalances, List.find?]

/-! ## C2: transfer atomicity -/

/-- C2 counterexample: a successful self-transfer of 40 from balance 100
leaves the sender at 140, not at the claimed 100 - 40 = 60, so "whenever
transfer returns success the sender's balance is decreased by amount"
fails as stated. -/
theorem transfer_atomicity_counterexample :
    (App.transfer 0 "alice" 40 aliceState).map
        (fun p => (p.1, findBalance p.2.users "alice")) = some (true, some 140) ∧
    (100 : Amount) - 40 = 60 ∧ ¬ ((140 : Amount) = 60) := by
  refine ⟨?_, by norm_num, by norm_num⟩
  norm_num +decide [App.transfer, aliceState, userExists, App.can_withdraw,
    App.get_balance, findBalance, findUser, updateBalance, App.add_message,
    List.find?]

/-- C2 amended: for an authenticated sender with stored balance `sb` and a
recipient distinct from the sender, a successful `App::transfer` debits the
sender by amount, credits the recipient by amount, and appends exactly the
transfer_out and transfer_in rows with matching amounts; on failure neither
balances nor log change. -/
theorem transfer_atomic (now : Nat) (recipient : String) (amount : Amount)
    (s : State) (sender : String) (sb : Amount)
    (hcu : s.current_user = some sender)
    (hsb : findBalance s.users sender = some sb)
    (hne : recipient ≠ sender) :
    TransferAtomicSpec now recipient amount s sender sb := by
  have hsb0 := hsb
  simp only [findBalance] at hsb0
  obtain ⟨rS, hrS, hrSb⟩ := Option.map_eq_some'.mp hsb0
  have hcw : App.can_withdraw amount s = some (decide (amount ≤ sb)) := by
    simp only [App.can_withdraw, hcu, hsb]
  have hgb : App.get_balance s = some sb := by
    simp only [App.get_balance, hcu, hsb]
  unfold TransferAtomicSpec
  cases hex : userExists s.users recipient with
  | false =>
    simp only [App.transfer, hex, Bool.not_false, if_true]
    exact ⟨rfl, rfl⟩
  | true =>
    obtain ⟨rR, hrR⟩ := exists_findUser_of_userExists hex
    have hfr : findBalance s.users recipient = some rR.balance := by
      simp only [findBalance, hrR, Option.map_some']
    by_cases hle : amount ≤ sb
    · have hd : decide (amount ≤ sb) = true := decide_eq_true hle
      simp only [App.transfer, hex, Bool.not_true, if_false, hcw, hd, hcu, hgb, hfr]
      refine ⟨rR.balance, rfl, ?_, ?_, rfl⟩
      · rw [App.add_message]
        rw [findBalance_updateBalance_other _ _ _ _ (Ne.symm hne)]
        rw [findBalance_updateBalance_self (sb - amount) hrS]
      · rw [App.add_message]
        have h1 : findUser (updateBalance s.users sender (sb - amount)) recipient
            = some rR := by
          rw [findUser_updateBalance_other _ _ _ _ hne, hrR]
        rw [findBalance_updateBalance_self (rR.balance + amount) h1]
    · have hd : decide (amount ≤ sb) = false := decide_eq_false hle
      simp only [App.transfer, hex, Bool.not_true, if_false, hcw, hd]
      exact ⟨rfl, rfl⟩

/-- C2 witness: the amended atomicity theorem applied to a concrete
transfer of 40 from alice (balance 100) to bob. -/
theorem transfer_atomic_witness :
    TransferAtomicSpec 0 "bob" 40 aliceBobState "alice" 100 :=
  transfer_atomic 0 "bob" 40 aliceBobState "alice" 100 rfl (by decide) (by decide)

/-! ## C3: order of the transfer failure checks -/

/-- C3 counterexample: with alice authenticated (balance 100), recipient
bob existing and amount 0, the claimed third check (amount > 0) would make
the transfer fail, but the code performs no such check: the transfer
succeeds and appends two records of amount 0. -/
theorem transfer_check_order_counterexample :
    (App.transfer 0 "bob" 0 aliceBobState).map
        (fun p => (p.1, p.2.transactions.length)) = some (true, 2) := by
  decide

/-- C3 amended: for an authenticated sender whose stored balance is `sb`,
`App::transfer` performs exactly two short-circuiting failure checks —
first that the recipient exists, then `can_withdraw` (which is false when
the balance is below the amount, and folds in the authentication check) —
and never checks amount > 0; the failure message reported is that of the
first check that fails. -/
theorem transfer_check_order (now : Nat) (recipient : String) (amount : Amount)
    (s : State) (sender : String) (sb : Amount)
    (hcu : s.current_user = some sender)
    (hsb : findBalance s.users sender = some sb) :
    TransferChecksSpec now recipient amount s sb := by
  have hcw : App.can_withdraw amount s = some (decide (amount ≤ sb)) := by
    simp only [App.can_withdraw, hcu, hsb]
  have hgb : App.get_balance s = some sb := by
    simp only [App.get_balance, hcu, hsb]
  unfold TransferChecksSpec
  cases hex : userExists s.users recipient with
  | false =>
    simp only [App.transfer, hex, Bool.not_false, if_true]
    simp
  | true =>
    obtain ⟨rR, hrR⟩ := exists_findUser_of_userExists hex
    have hfr : findBalance s.users recipient = some rR.balance := by
      simp only [findBalance, hrR, Option.map_some']
    by_cases hle : amount ≤ sb
    · have hd : decide (amount ≤ sb) = true := decide_eq_true hle
      simp only [App.transfer, hex, Bool.not_true, if_false, hcw, hd, hcu, hgb, hfr]
      simp [hle]
    · have hd : decide (amount ≤ sb) = false := decide_eq_false hle
      simp only [App.transfer, hex, Bool.not_true, if_false, hcw, hd]
      simp [hle]

/-- C3 witness: the amended check-order theorem applied to alice
transferring 40 to the nonexistent recipient carol. -/
theorem transfer_check_order_witness :
    TransferChecksSpec 0 "carol" 40 aliceBobState 100 :=
  transfer_check_order 0 "carol" 40 aliceBobState "alice" 100 rfl (by decide)

/-! ## C5: deposit -/

/-- C5: for an authenticated user `u` with stored balance `b`,
`App::deposit` sets the balance to `b + amount`, appends exactly one
deposit row whose snapshots are the balances before and after, and leaves
every other account's balance unchanged. -/
theorem deposit_spec_holds (now : Nat) (amount : Amount) (s : State)
    (u : String) (b : Amount)
    (hcu : s.current_user = some u)
    (hb : findBalance s.users u = some b) :
    DepositSpec now amount s u b := by
  have hb0 := hb
  simp only [findBalance] at hb0
  obtain ⟨r, hr, hrb⟩ := Option.map_eq_some'.mp hb0
  have hgb : App.get_balance s = some b := by
    simp only [App.get_balance, hcu, hb]
  unfold DepositSpec
  simp only [App.deposit, hcu, hgb, App.add_message]
  refine ⟨?_, trivial, ?_⟩
  · exact findBalance_updateBalance_self (b + amount) hr
  · intro v hv
    exact findBalance_updateBalance_other _ _ _ _ hv

/-- C5 witness: alice (balance 100) deposits 50. -/
theorem deposit_spec_witness :
    DepositSpec 0 50 aliceBobState "alice" 100 :=
  deposit_spec_holds 0 50 aliceBobState "alice" 100 rfl (by decide)

/-! ## C9: withdraw has no balance or sign check -/

/-- C9: for an authenticated user `u` with stored balance `b` and any
amount, including amounts greater than `b`, `App::withdraw` succeeds, sets
the balance to `b - amount` (possibly negative), appends one withdraw row,
and leaves every other balance unchanged; the insufficient-funds guard
lives only in the input-handling layer. -/
theorem withdraw_unchecked (now : Nat) (amount : Amount) (s : State)
    (u : String) (b : Amount)
    (hcu : s.current_user = some u)
    (hb : findBalance s.users u = some b) :
    WithdrawSpec now amount s u b := by
  have hb0 := hb
  simp only [findBalance] at hb0
  obtain ⟨r, hr, hrb⟩ := Option.map_eq_some'.mp hb0
  have hgb : App.get_balance s = some b := by
    simp only [App.get_balance, hcu, hb]
  unfold WithdrawSpec
  simp only [App.withdraw, hcu, hgb, App.add_message]
  refine ⟨?_, trivial, ?_⟩
  · exact findBalance_updateBalance_self (b - amount) hr
  · intro v hv
    exact findBalance_updateBalance_other _ _ _ _ hv

/-- C9 witness: alice (balance 100) directly withdraws 150; the call
succeeds and the resulting stored balance 100 - 150 is negative. -/
theorem withdraw_unchecked_witness :
    WithdrawSpec 0 150 aliceBobState "alice" 100 ∧ (100 : Amount) - 150 < 0 :=
  ⟨withdraw_unchecked 0 150 aliceBobState "alice" 100 rfl (by decide), by norm_num⟩

/-! ## C6: a transfer in the history views -/

/-- C6 counterexample: after alice transfers 40 to bob, the history the
program returns for alice (`App::get_transactions`, which lacks the
de-duplication skip) contains the recipient's transfer_in row as well:
two records from the one transfer, one of them a transfer_in, where the
claim requires exactly one record and zero transfer_in rows. -/
theorem history_duplication_counterexample :
    (App.transfer 0 "bob" 40 aliceBobState).map
        (fun p => ((App.get_transactions p.2).countP
            (fun t => t.transaction_type == "transfer_in"),
          (App.get_transactions p.2).length))
      = some (1, 2) := by
  norm_num +decide [App.transfer, aliceBobState, userExists, App.can_withdraw,
    App.get_balance, findBalance, findUser, updateBalance, App.add_message,
    App.get_transactions, List.find?, List.countP]

/-- C6 amended: the claim holds of the repository-backed history query
`Transaction::get_user_transactions` (the variant with the de-duplication
skip): after `AppController::transfer` of `amount` from `A` (balance `sb`,
`amount ≤ sb`) to a distinct existing `B` (balance `rb`), A's history gains
exactly the transfer_out row and B's history gains exactly the transfer_in
row. `App::get_transactions` instead returns the transfer_in row in the
sender's history as well. -/
theorem transfer_history_exactly_once (now : Nat) (A B : String)
    (amount : Amount) (s : State) (sb rb : Amount)
    (hcu : s.current_user = some A)
    (hsa : findBalance s.users A = some sb)
    (hrb : findBalance s.users B = some rb)
    (hne : A ≠ B)
    (hle : amount ≤ sb) :
    TransferHistorySpec now A B amount s sb rb := by
  have hsa0 := hsa
  simp only [findBalance] at hsa0
  obtain ⟨rA, hrA, hrAb⟩ := Option.map_eq_some'.mp hsa0
  have hrb0 := hrb
  simp only [findBalance] at hrb0
  obtain ⟨rB, hrB, hrBb⟩ := Option.map_eq_some'.mp hrb0
  have hgb : AppController.get_balance s = sb := by
    simp only [AppController.get_balance, hcu, hrA, hrAb]
  have hnlt : ¬ (sb < amount) := not_lt.mpr hle
  have hAB : (A == B) = false := beq_eq_false_iff_ne.mpr hne
  have hBA : (B == A) = false := beq_eq_false_iff_ne.mpr (Ne.symm hne)
  have hON : ∀ x : String, ((none : Option String) == some x) = false :=
    fun _ => rfl
  have hS1 : ((some A : Option String) == some B) = (A == B) := rfl
  have hS2 : ((some A : Option String) == some A) = (A == A) := rfl
  unfold TransferHistorySpec
  simp only [AppController.transfer, hcu, hrB, hgb, hrBb, if_neg hnlt,
    AppController.add_message]
  refine ⟨trivial, ?_, ?_⟩
  · simp +decide [Transaction.get_user_transactions, List.filter_append,
      hAB, hBA, hON, hS1, hS2]
  · simp +decide [Transaction.get_user_transactions, List.filter_append,
      hAB, hBA, hON, hS1, hS2]

/-- C6 witness: the amended history theorem applied to alice transferring
40 to bob on the concrete two-account ledger. -/
theorem transfer_history_exactly_once_witness :
    TransferHistorySpec 0 "alice" "bob" 40 aliceBobState 100 0 :=
  transfer_history_exactly_once 0 "alice" "bob" 40 aliceBobState 100 0
    rfl (by decide) (by decide) (by decide) (by decide)

/-! ## C10: zero amounts pass the input guard -/

/-- C10: with a user `u` of nonnegative stored balance `b` logged in and
"0" in the input buffer, pressing Enter in the Deposit or the Withdraw
screen passes the `amount >= 0.0` guard: the operation succeeds, returns
to the LoggedIn screen, leaves the balance unchanged, and still appends a
transaction record of amount 0. -/
theorem zero_amount_accepted (now : Nat) (s : State) (u : String) (b : Amount)
    (hcu : s.current_user = some u)
    (hb : findBalance s.users u = some b)
    (hnn : 0 ≤ b)
    (hin : s.input = "0") :
    (s.current_state = AppState.Deposit → ZeroDepositSpec now s u b) ∧
    (s.current_state = AppState.Withdraw → ZeroWithdrawSpec now s u b) := by
  have hb0 := hb
  simp only [findBalance] at hb0
  obtain ⟨r, hr, hrb⟩ := Option.map_eq_some'.mp hb0
  have hp : parseAmount (trim "0") = some 0 := by decide
  have hgb : AppController.get_balance s = b := by
    simp only [AppController.get_balance, hcu, hr, hrb]
  constructor
  · intro hst
    unfold ZeroDepositSpec
    simp only [AppController.handle_input, hst, AppController.on_amount_screen,
      hin, hp, reduceIte]
    simp only [AppController.deposit, hcu, hgb, AppController.add_message, add_zero]
    refine ⟨rfl, rfl, ?_, rfl⟩
    exact findBalance_updateBalance_self b hr
  · intro hst
    unfold ZeroWithdrawSpec
    have hcw : AppController.can_withdraw 0 s = true := by
      simp only [AppController.can_withdraw, hcu, hr]
      exact decide_eq_true (hrb ▸ hnn)
    simp only [AppController.handle_input, hst, AppController.on_amount_screen,
      hin, hp, hcw, reduceIte]
    simp only [AppController.withdraw, hcu, hgb, AppController.add_message, sub_zero]
    refine ⟨rfl, rfl, ?_, rfl⟩
    exact findBalance_updateBalance_self b hr

/-- C10 witness: alice (balance 100), input "0", in the Deposit screen and
in the Withdraw screen. -/
theorem zero_amount_accepted_witness :
    ZeroDepositSpec 0
      { aliceBobState with current_state := AppState.Deposit, input := "0" }
      "alice" 100 ∧
    ZeroWithdrawSpec 0
      { aliceBobState with current_state := AppState.Withdraw, input := "0" }
      "alice" 100 :=
  ⟨(zero_amount_accepted 0
      { aliceBobState with current_state := AppState.Deposit, input := "0" }
      "alice" 100 rfl (by decide) (by norm_num) rfl).1 rfl,
   (zero_amount_accepted 0
      { aliceBobState with current_state := AppState.Withdraw, input := "0" }
      "alice" 100 rfl (by decide) (by norm_num) rfl).2 rfl⟩
/-! ## C4: the input loop never drives a balance negative -/

theorem nonneg_updateBalance {us : List UserRow} {u : String} {b : Amount}
    (hb : 0 ≤ b) (h : NonnegBalances us) : NonnegBalances (updateBalance us u b) := by
  intro r hr
  simp only [updateBalance, List.mem_map] at hr
  obtain ⟨r0, hr0, heq⟩ := hr
  rw [← heq]
  by_cases hc : r0.username = u
  · have he : (if (r0.username == u) = true then ({ r0 with balance := b } : UserRow)
        else r0) = { r0 with balance := b } := by simp [hc]
    rw [he]
    exact hb
  · have he : (if (r0.username == u) = true then ({ r0 with balance := b } : UserRow)
        else r0) = r0 := by simp [hc]
    rw [he]
    exact h r0 hr0

theorem nonneg_append_new {us : List UserRow} (u : String)
    (h : NonnegBalances us) : NonnegBalances (us ++ [⟨u, 0⟩]) := by
  intro r hr
  rcases List.mem_append.mp hr with h1 | h1
  · exact h r h1
  · have he : r = ⟨u, 0⟩ := by simpa using h1
    rw [he]

theorem get_balance_nonneg {s : State} (h : NonnegBalances s.users) :
    0 ≤ AppController.get_balance s := by
  unfold AppController.get_balance
  cases hcu : s.current_user with
  | none => exact le_refl (0 : Amount)
  | some u =>
    dsimp only
    cases hfu : findUser s.users u with
    | none => exact le_refl (0 : Amount)
    | some r => exact h r (mem_of_findUser hfu)

theorem can_withdraw_le {a : Amount} {s : State}
    (h : AppController.can_withdraw a s = true) :
    a ≤ AppController.get_balance s := by
  unfold AppController.can_withdraw at h
  unfold AppController.get_balance
  cases hcu : s.current_user with
  | none =>
    rw [hcu] at h
    simp at h
  | some u =>
    rw [hcu] at h
    dsimp only at h
    dsimp only
    cases hfu : findUser s.users u with
    | none =>
      rw [hfu] at h
      simp at h
    | some r =>
      rw [hfu] at h
      exact of_decide_eq_true h

theorem deposit_users_nonneg (now : Nat) {a : Amount} {s : State}
    (ha : 0 ≤ a) (h : NonnegBalances s.users) :
    NonnegBalances (AppController.deposit now a s).users := by
  unfold AppController.deposit
  cases hcu : s.current_user with
  | none => exact h
  | some u =>
    dsimp only
    exact nonneg_updateBalance (add_nonneg (get_balance_nonneg h) ha) h

theorem withdraw_users_nonneg (now : Nat) {a : Amount} {s : State}
    (hle : a ≤ AppController.get_balance s) (h : NonnegBalances s.users) :
    NonnegBalances (AppController.withdraw now a s).users := by
  unfold AppController.withdraw
  cases hcu : s.current_user with
  | none => exact h
  | some u =>
    dsimp only
    exact nonneg_updateBalance (sub_nonneg.mpr hle) h

theorem transfer_users_nonneg (now : Nat) (rcp : String) {a : Amount} {s : State}
    (ha : 0 ≤ a) (h : NonnegBalances s.users) :
    NonnegBalances (AppController.transfer now rcp a s).2.users := by
  unfold AppController.transfer
  split
  · rename_i su ru heq1 heq2
    by_cases hlt : AppController.get_balance s < a
    · rw [if_pos hlt]
      exact h
    · rw [if_neg hlt]
      exact nonneg_updateBalance
        (add_nonneg (h ru (mem_of_findUser heq2)) ha)
        (nonneg_updateBalance (sub_nonneg.mpr (not_lt.mp hlt)) h)
  · exact h

theorem on_main_menu_users_nonneg (key : KeyCode) (s : State)
    (h : NonnegBalances s.users) :
    NonnegBalances (AppController.on_main_menu key s).2.users := by
  unfold AppController.on_main_menu
  cases key <;> (try exact h) <;> (repeat' split) <;> exact h

theorem on_logged_in_users_nonneg (now : Nat) (key : KeyCode) (s : State)
    (h : NonnegBalances s.users) :
    NonnegBalances (AppController.on_logged_in now key s).2.users := by
  unfold AppController.on_logged_in
  cases key <;> (try exact h) <;> (repeat' split) <;> exact h

theorem on_view_transactions_users_nonneg (key : KeyCode) (s : State)
    (h : NonnegBalances s.users) :
    NonnegBalances (AppController.on_view_transactions key s).2.users := by
  unfold AppController.on_view_transactions
  cases key <;> exact h

theorem on_login_or_create_users_nonneg (now : Nat) (key : KeyCode) (s : State)
    (h : NonnegBalances s.users) :
    NonnegBalances (AppController.on_login_or_create now key s).2.users := by
  unfold AppController.on_login_or_create
  cases key with
  | Enter =>
    dsimp only [AppController.login, AppController.create_account, User.create]
    repeat' split
    all_goals first
      | exact h
      | exact nonneg_append_new _ h
  | Char c => exact h
  | Backspace => exact h
  | Esc => exact h
  | Other => exact h

theorem on_amount_screen_users_nonneg (parse : String → Option Amount)
    (now : Nat) (key : KeyCode) (s : State)
    (h : NonnegBalances s.users) :
    NonnegBalances (AppController.on_amount_screen parse now key s).2.users := by
  unfold AppController.on_amount_screen
  cases key with
  | Enter =>
    dsimp only
    cases hp : parse (trim s.input) with
    | none => exact h
    | some a =>
      dsimp only
      by_cases ha : 0 ≤ a
      · rw [if_pos ha]
        by_cases hd : s.current_state = AppState.Deposit
        · rw [if_pos hd]
          exact deposit_users_nonneg now ha h
        · rw [if_neg hd]
          by_cases hcw : AppController.can_withdraw a s = true
          · rw [if_pos hcw]
            exact withdraw_users_nonneg now (can_withdraw_le hcw) h
          · rw [if_neg hcw]
            exact h
      · rw [if_neg ha]
        exact h
  | Char c => exact h
  | Backspace => exact h
  | Esc => exact h
  | Other => exact h

theorem on_transfer_screen_users_nonneg (parse : String → Option Amount)
    (now : Nat) (key : KeyCode) (s : State)
    (h : NonnegBalances s.users) :
    NonnegBalances (AppController.on_transfer_screen parse now key s).2.users := by
  unfold AppController.on_transfer_screen
  cases key with
  | Enter =>
    dsimp only
    cases hrc : s.transfer_recipient with
    | none => exact h
    | some rcp =>
      dsimp only
      cases hp : parse (trim s.input) with
      | none => exact h
      | some a =>
        dsimp only
        by_cases ha : 0 ≤ a
        · rw [if_pos ha]
          exact transfer_users_nonneg now rcp ha h
        · rw [if_neg ha]
          exact h
  | Char c => exact h
  | Backspace => exact h
  | Esc => exact h
  | Other => exact h

theorem handle_input_users_nonneg (parse : String → Option Amount)
    (now : Nat) (key : KeyCode) (s : State)
    (h : NonnegBalances s.users) :
    NonnegBalances (AppController.handle_input parse now key s).2.users := by
  unfold AppController.handle_input
  cases hst : s.current_state
  case MainMenu => exact on_main_menu_users_nonneg key s h
  case Login => exact on_login_or_create_users_nonneg now key s h
  case CreateAccount => exact on_login_or_create_users_nonneg now key s h
  case LoggedIn => exact on_logged_in_users_nonneg now key s h
  case Deposit => exact on_amount_screen_users_nonneg parse now key s h
  case Withdraw => exact on_amount_screen_users_nonneg parse now key s h
  case Transfer => exact on_transfer_screen_users_nonneg parse now key s h
  case ViewTransactions => exact on_view_transactions_users_nonneg key s h

/-- C4: for every sequence of timed key events driving the interaction
loop (message expiry plus `AppController::handle_input`, for any parse
function), if every stored balance starts nonnegative then every stored
balance stays nonnegative: each withdraw is guarded by `can_withdraw` and
each outgoing transfer by the internal balance pre-check, while the
`amount >= 0.0` input guard keeps deposits and credits nonnegative. -/
theorem run_preserves_nonneg_balances (parse : String → Option Amount)
    (evs : List (Nat × KeyCode)) (s : State)
    (h : NonnegBalances s.users) :
    NonnegBalances (AppController.run parse evs s).users := by
  revert s
  induction evs with
  | nil => exact fun s h => h
  | cons ev rest ih =>
    intro s h
    exact ih (AppController.loop_step parse ev s)
      (handle_input_users_nonneg parse ev.1 ev.2 _ h)

/-- C4 witness: a concrete run (enter the Deposit screen, type a
non-numeric amount, press Enter) from the two-account ledger keeps all
balances nonnegative. -/
theorem run_preserves_nonneg_balances_witness :
    NonnegBalances aliceBobState.users ∧
    NonnegBalances (AppController.run parseAmount
      [(0, KeyCode.Char '1'), (1, KeyCode.Char 'w'), (2, KeyCode.Enter)]
      aliceBobState).users :=
  ⟨by decide,
   run_preserves_nonneg_balances parseAmount
     [(0, KeyCode.Char '1'), (1, KeyCode.Char 'w'), (2, KeyCode.Enter)]
     aliceBobState (by decide)⟩

end EWallet
